import Mathlib

/-!
Verification development for the kintone customize template repository.

The core component is the deploy-completion waiter `waitForDeploy`
(scripts/app-management/common/kintone-client.mjs): a sequential polling
loop over `client.app.getDeployStatus({ apps: [appId] })` that classifies
the first entry's `status` string and either returns an outcome, or
suspends for `intervalMs` and retries, up to `maxAttempts` attempts.

The second component is the dotenv-style parser `loadEnv`
(scripts/app-management/common/env.mjs), modelled here over `List Char`
so that the JavaScript single-character `split`, `join` and `trim`
semantics are embedded directly.

The waiter is embedded with an instrumented semantics: along with the
final result it returns the list of observable events (each status query
with the batch it submitted, and each suspension with its duration), so
that claims about call counts, suspension counts and inter-call timing
can be stated and proved.
-/

/-- One entry of a `getDeployStatus` response (`apps[k]` in the source).
The `status` field is optional: `none` models a missing field. -/
structure DeployApp where
  app : String
  status : Option String
deriving Repr, DecidableEq

/-- A `getDeployStatus` response: `{ apps: [...] }`. -/
structure GetDeployStatusResp where
  apps : List DeployApp
deriving Repr, DecidableEq

/-- The value produced by the waiter: `{ success, status }`. -/
structure WaitOutcome where
  success : Bool
  status : String
deriving Repr, DecidableEq

/-- Observable events of a waiter run: the `i`-th status query together
with the batch of app ids it submitted, and a suspension (the
`setTimeout` of the source) with its duration in milliseconds. -/
inductive WaitEvent where
  | query : Nat → List String → WaitEvent
  | sleep : Nat → WaitEvent
deriving Repr, DecidableEq

/-- `apps[0]?.status` of the source: the status of the first entry, or
`none` when the entry list is empty or the first entry has no status. -/
def firstStatus (r : GetDeployStatusResp) : Option String :=
  r.apps.head?.bind DeployApp.status

/-- The loop body of `waitForDeploy`, by recursion on the remaining
attempts (`fuel`), with `i` the current 0-based attempt index.  The
client is modelled as a function from the call index and the submitted
batch to a response or a transport error (`Except.error`), which the
waiter does not catch.  Faithful to the source: a first-entry status of
`"SUCCESS"` returns `{success: true, status}`; `"FAIL"` or `"CANCEL"`
returns `{success: false, status}`; anything else suspends for
`intervalMs` and retries; an exhausted budget returns
`{success: false, status: "TIMEOUT"}`. -/
def waitLoop {ε : Type} (client : Nat → List String → Except ε GetDeployStatusResp)
    (appId : String) (intervalMs : Nat) :
    Nat → Nat → List WaitEvent × Except ε WaitOutcome
  | 0, _ => ([], Except.ok ⟨false, "TIMEOUT"⟩)
  | fuel + 1, i =>
    match client i [appId] with
    | Except.error e => ([WaitEvent.query i [appId]], Except.error e)
    | Except.ok resp =>
      if firstStatus resp = some "SUCCESS" then
        ([WaitEvent.query i [appId]], Except.ok ⟨true, "SUCCESS"⟩)
      else if firstStatus resp = some "FAIL" then
        ([WaitEvent.query i [appId]], Except.ok ⟨false, "FAIL"⟩)
      else if firstStatus resp = some "CANCEL" then
        ([WaitEvent.query i [appId]], Except.ok ⟨false, "CANCEL"⟩)
      else
        (WaitEvent.query i [appId] :: WaitEvent.sleep intervalMs ::
           (waitLoop client appId intervalMs fuel (i + 1)).1,
         (waitLoop client appId intervalMs fuel (i + 1)).2)

/-- `waitForDeploy client appId maxAttempts intervalMs`: the source's
`for (let i = 0; i < maxAttempts; i++)` runs `max maxAttempts 0`
iterations (none when `maxAttempts ≤ 0`), starting at index 0. -/
def waitForDeploy {ε : Type} (client : Nat → List String → Except ε GetDeployStatusResp)
    (appId : String) (maxAttempts : Int) (intervalMs : Nat) :
    List WaitEvent × Except ε WaitOutcome :=
  waitLoop client appId intervalMs maxAttempts.toNat 0

/-- Number of status queries recorded in a trace. -/
def numQueries : List WaitEvent → Nat
  | [] => 0
  | WaitEvent.query _ _ :: tr => numQueries tr + 1
  | WaitEvent.sleep _ :: tr => numQueries tr

/-- Number of suspensions recorded in a trace. -/
def numSleeps : List WaitEvent → Nat
  | [] => 0
  | WaitEvent.query _ _ :: tr => numSleeps tr
  | WaitEvent.sleep _ :: tr => numSleeps tr + 1

/-- A response whose first-entry status is none of the three terminal
values: the waiter keeps polling on it. -/
def isNonTerminal (r : GetDeployStatusResp) : Bool :=
  !(firstStatus r == some "SUCCESS") && !(firstStatus r == some "FAIL") &&
    !(firstStatus r == some "CANCEL")

/-- A client call result on which the waiter keeps polling: a response
(not a transport error) with a non-terminal first-entry status. -/
def reportsNonTerminal {ε : Type} : Except ε GetDeployStatusResp → Bool
  | Except.ok r => isNonTerminal r
  | Except.error _ => false

/-- Shape of a well-formed waiter trace starting at attempt index `i`:
queries carry consecutive indices and each one, except a final one, is
followed by exactly one suspension of duration `ms`. -/
def wellFormedTrace (ms : Nat) : Nat → List WaitEvent → Bool
  | _, [] => true
  | i, [WaitEvent.query j _] => j == i
  | i, WaitEvent.query j _ :: WaitEvent.sleep m :: tr =>
      j == i && m == ms && wellFormedTrace ms (i + 1) tr
  | _, _ => false

/-- Start times of the queries of a trace, given the duration `dur i` of
the `i`-th query and the start time `t` of the first event: a query
occupies `dur i` milliseconds and a suspension `ms` milliseconds. -/
def callStarts (dur : Nat → Nat) : List WaitEvent → Nat → List Nat
  | [], _ => []
  | WaitEvent.query i _ :: tr, t => t :: callStarts dur tr (t + dur i)
  | WaitEvent.sleep ms :: tr, t => callStarts dur tr (t + ms)

/-- Replace every non-terminal response of a client by the canonical
`PROCESSING` one, leaving errors and terminal responses unchanged. -/
def canonize {ε : Type} (client : Nat → List String → Except ε GetDeployStatusResp) :
    Nat → List String → Except ε GetDeployStatusResp :=
  fun i b =>
    match client i b with
    | Except.error e => Except.error e
    | Except.ok r =>
      if isNonTerminal r then Except.ok ⟨[⟨"", some "PROCESSING"⟩]⟩ else Except.ok r

/-- A response whose single entry reports the given status string. -/
def mkResp (s : String) : GetDeployStatusResp :=
  ⟨[⟨"1", some s⟩]⟩

/-- A client whose `i`-th call returns the `i`-th element of `xs`
(an empty-entry response once `xs` is exhausted), for concrete runs. -/
def seqClient (xs : List (Except Unit GetDeployStatusResp)) :
    Nat → List String → Except Unit GetDeployStatusResp :=
  fun i _ => xs.getD i (Except.ok ⟨[]⟩)

/-- A client that always reports `PROCESSING`. -/
def procClient : Nat → List String → Except Unit GetDeployStatusResp :=
  fun _ _ => Except.ok (mkResp "PROCESSING")

/- ### The dotenv parser of env.mjs, over `List Char` -/

/-- The whitespace characters stripped by the JavaScript `trim`
(restricted to the ASCII ones, which are the only ones a `.env` file is
expected to contain). -/
def isJsSpace (c : Char) : Bool :=
  c = ' ' || c = '\t' || c = '\n' || c = '\r' ||
    c = Char.ofNat 11 || c = Char.ofNat 12

/-- JavaScript `s.trim()`: strip leading and trailing whitespace. -/
def jsTrim (s : List Char) : List Char :=
  ((s.dropWhile isJsSpace).reverse.dropWhile isJsSpace).reverse

/-- JavaScript `s.split(sep)` for a single-character separator: always
returns at least one (possibly empty) part, and one extra part per
occurrence of `sep`. -/
def splitOnChar (sep : Char) : List Char → List (List Char)
  | [] => [[]]
  | c :: rest =>
    if c = sep then [] :: splitOnChar sep rest
    else
      match splitOnChar sep rest with
      | [] => [[c]]
      | p :: ps => (c :: p) :: ps

/-- JavaScript `parts.join(sep)` for a single-character separator. -/
def joinSep (sep : Char) : List (List Char) → List Char
  | [] => []
  | [p] => p
  | p :: q :: ps => p ++ sep :: joinSep sep (q :: ps)

/-- The body of the `forEach` of `loadEnv`: trim the line; skip it when
it is empty or starts with `#`; split it on `=`; when the key part is
non-empty and at least one value part exists, produce the entry
`(key.trim(), valueParts.join("=").trim())`; otherwise skip it. -/
def parseEnvLine (line : List Char) : Option (List Char × List Char) :=
  let trimmedLine := jsTrim line
  if trimmedLine = [] then none
  else if trimmedLine.head? = some '#' then none
  else
    match splitOnChar '=' trimmedLine with
    | [] => none
    | key :: valueParts =>
      if key ≠ [] ∧ valueParts.length > 0 then
        some (jsTrim key, jsTrim (joinSep '=' valueParts))
      else none

/-- JavaScript object assignment `env[k] = v` on an insertion-ordered
association list: overwrite in place when the key exists, else append. -/
def setKey (env : List (List Char × List Char)) (k v : List Char) :
    List (List Char × List Char) :=
  if env.any (fun p => p.1 = k) then
    env.map (fun p => if p.1 = k then (k, v) else p)
  else env ++ [(k, v)]

/-- `loadEnv` applied to the text of the `.env` file: split the content
on newlines and process each line in order (the file-reading and the
missing-file exit of the source are I/O and are not modelled). -/
def loadEnv (envContent : List Char) : List (List Char × List Char) :=
  (splitOnChar '\n' envContent).foldl
    (fun env line =>
      match parseEnvLine line with
      | some (k, v) => setKey env k v
      | none => env)
    []

/-- A client whose every response has an empty entry list. -/
def emptyEntriesClient : Nat → List String → Except Unit GetDeployStatusResp :=
  fun _ _ => Except.ok ⟨[]⟩

/-- A client that always raises a transport error. -/
def errClient : Nat → List String → Except Unit GetDeployStatusResp :=
  fun _ _ => Except.error ()

/-- A client reporting `SUCCESS` with a single response entry. -/
def oneEntryClient : Nat → List String → Except Unit GetDeployStatusResp :=
  fun _ _ => Except.ok ⟨[⟨"1", some "SUCCESS"⟩]⟩

/-- A client reporting `SUCCESS` in the first response entry, with a
second, differing entry after it. -/
def twoEntryClient : Nat → List String → Except Unit GetDeployStatusResp :=
  fun _ _ => Except.ok ⟨[⟨"1", some "SUCCESS"⟩, ⟨"2", some "FAIL"⟩]⟩

/-- A client reporting `PROCESSING` twice and then `SUCCESS`. -/
def sClient : Nat → List String → Except Unit GetDeployStatusResp :=
  seqClient [Except.ok (mkResp "PROCESSING"), Except.ok (mkResp "PROCESSING"),
    Except.ok (mkResp "SUCCESS")]

/-- A client that always reports `FAIL`. -/
def fClient : Nat → List String → Except Unit GetDeployStatusResp :=
  fun _ _ => Except.ok (mkResp "FAIL")

/- ### Helper lemmas about the waiter -/

lemma isNonTerminal_iff (r : GetDeployStatusResp) :
    isNonTerminal r = true ↔
      firstStatus r ≠ some "SUCCESS" ∧ firstStatus r ≠ some "FAIL" ∧
        firstStatus r ≠ some "CANCEL" := by
  simp [isNonTerminal, and_assoc]

lemma waitLoop_err_step {ε : Type} (client : Nat → List String → Except ε GetDeployStatusResp)
    (appId : String) (intervalMs fuel i : Nat) (e : ε)
    (h : client i [appId] = Except.error e) :
    waitLoop client appId intervalMs (fuel + 1) i =
      ([WaitEvent.query i [appId]], Except.error e) := by
  simp [waitLoop, h]

lemma waitLoop_terminal_step {ε : Type} (client : Nat → List String → Except ε GetDeployStatusResp)
    (appId : String) (intervalMs fuel i : Nat) (r : GetDeployStatusResp) (s : String)
    (h : client i [appId] = Except.ok r) (hs : firstStatus r = some s)
    (hterm : s = "SUCCESS" ∨ s = "FAIL" ∨ s = "CANCEL") :
    waitLoop client appId intervalMs (fuel + 1) i =
      ([WaitEvent.query i [appId]], Except.ok ⟨s == "SUCCESS", s⟩) := by
  rcases hterm with h1 | h1 | h1 <;> subst h1 <;> simp [waitLoop, h, hs]

lemma waitLoop_cont_step {ε : Type} (client : Nat → List String → Except ε GetDeployStatusResp)
    (appId : String) (intervalMs fuel i : Nat) (r : GetDeployStatusResp)
    (h : client i [appId] = Except.ok r) (hnt : isNonTerminal r = true) :
    waitLoop client appId intervalMs (fuel + 1) i =
      (WaitEvent.query i [appId] :: WaitEvent.sleep intervalMs ::
         (waitLoop client appId intervalMs fuel (i + 1)).1,
       (waitLoop client appId intervalMs fuel (i + 1)).2) := by
  rw [isNonTerminal_iff] at hnt
  simp [waitLoop, h, hnt.1, hnt.2.1, hnt.2.2]

lemma reportsNonTerminal_ok {ε : Type} (x : Except ε GetDeployStatusResp)
    (h : reportsNonTerminal x = true) :
    ∃ r, x = Except.ok r ∧ isNonTerminal r = true := by
  cases x with
  | error e => simp [reportsNonTerminal] at h
  | ok r => exact ⟨r, rfl, h⟩

/-- When every queried response is non-terminal, the loop uses its whole
budget, queries and suspends once per attempt, and times out. -/
lemma waitLoop_timeout {ε : Type} (client : Nat → List String → Except ε GetDeployStatusResp)
    (appId : String) (intervalMs : Nat) :
    ∀ fuel i, (∀ j, j < fuel → reportsNonTerminal (client (i + j) [appId]) = true) →
      (waitLoop client appId intervalMs fuel i).2 = Except.ok ⟨false, "TIMEOUT"⟩ ∧
        numQueries (waitLoop client appId intervalMs fuel i).1 = fuel ∧
        numSleeps (waitLoop client appId intervalMs fuel i).1 = fuel := by
  intro fuel
  induction fuel with
  | zero => intro i _; simp [waitLoop, numQueries, numSleeps]
  | succ n ih =>
    intro i h
    obtain ⟨r, hr, hnt⟩ := reportsNonTerminal_ok _ (h 0 (Nat.succ_pos n))
    rw [Nat.add_zero] at hr
    rw [waitLoop_cont_step client appId intervalMs n i r hr hnt]
    have hshift : ∀ j, j < n → reportsNonTerminal (client (i + 1 + j) [appId]) = true := by
      intro j hj
      have := h (j + 1) (by omega)
      rwa [show i + (j + 1) = i + 1 + j by omega] at this
    obtain ⟨h1, h2, h3⟩ := ih (i + 1) hshift
    exact ⟨h1, by simp [numQueries, h2], by simp [numSleeps, h3]⟩

/-- A returned outcome with status `"TIMEOUT"` can only come from budget
exhaustion: its success flag is false, the whole budget was queried and
slept through, and every queried response was non-terminal. -/
lemma waitLoop_timeout_only {ε : Type} (client : Nat → List String → Except ε GetDeployStatusResp)
    (appId : String) (intervalMs : Nat) :
    ∀ fuel i o, (waitLoop client appId intervalMs fuel i).2 = Except.ok o →
      o.status = "TIMEOUT" →
      o.success = false ∧
        numQueries (waitLoop client appId intervalMs fuel i).1 = fuel ∧
        numSleeps (waitLoop client appId intervalMs fuel i).1 = fuel ∧
        ∀ j, j < fuel → reportsNonTerminal (client (i + j) [appId]) = true := by
  intro fuel
  induction fuel with
  | zero =>
    intro i o ho _
    simp [waitLoop] at ho
    subst ho
    exact ⟨rfl, by simp [waitLoop, numQueries], by simp [waitLoop, numSleeps], by omega⟩
  | succ n ih =>
    intro i o ho hto
    cases hcl : client i [appId] with
    | error e =>
      rw [waitLoop_err_step client appId intervalMs n i e hcl] at ho
      simp at ho
    | ok r =>
      cases hnt : isNonTerminal r with
      | false =>
        have hterm : firstStatus r = some "SUCCESS" ∨ firstStatus r = some "FAIL" ∨
            firstStatus r = some "CANCEL" := by
          by_contra hc
          push_neg at hc
          rw [← isNonTerminal_iff r] at hc
          simp [hnt] at hc
        rcases hterm with hs | hs | hs <;>
          · rw [waitLoop_terminal_step client appId intervalMs n i r _ hcl hs
                (by simp)] at ho
            simp at ho
            subst ho
            simp at hto
      | true =>
        rw [waitLoop_cont_step client appId intervalMs n i r hcl hnt] at ho ⊢
        obtain ⟨h1, h2, h3, h4⟩ := ih (i + 1) o ho hto
        refine ⟨h1, by simp [numQueries, h2], by simp [numSleeps, h3], ?_⟩
        intro j hj
        cases j with
        | zero => rw [Nat.add_zero, hcl]; exact hnt
        | succ m =>
          have := h4 m (by omega)
          rwa [show i + 1 + m = i + (m + 1) by omega] at this

/-- When the first `k` queried responses are non-terminal and the
`(k+1)`-st reports the terminal status `s`, the loop stops right there:
`k + 1` queries, `k` suspensions, and the outcome echoes `s` with a
success flag exactly for `"SUCCESS"`. -/
lemma waitLoop_terminal_at {ε : Type} (client : Nat → List String → Except ε GetDeployStatusResp)
    (appId : String) (intervalMs : Nat) :
    ∀ k fuel i r s, k < fuel →
      (∀ j, j < k → reportsNonTerminal (client (i + j) [appId]) = true) →
      client (i + k) [appId] = Except.ok r →
      firstStatus r = some s →
      (s = "SUCCESS" ∨ s = "FAIL" ∨ s = "CANCEL") →
      (waitLoop client appId intervalMs fuel i).2 = Except.ok ⟨s == "SUCCESS", s⟩ ∧
        numQueries (waitLoop client appId intervalMs fuel i).1 = k + 1 ∧
        numSleeps (waitLoop client appId intervalMs fuel i).1 = k := by
  intro k
  induction k with
  | zero =>
    intro fuel i r s hk _ hcl hs hterm
    cases fuel with
    | zero => omega
    | succ n =>
      rw [Nat.add_zero] at hcl
      rw [waitLoop_terminal_step client appId intervalMs n i r s hcl hs hterm]
      simp [numQueries, numSleeps]
  | succ m ih =>
    intro fuel i r s hk hpre hcl hs hterm
    cases fuel with
    | zero => omega
    | succ n =>
      obtain ⟨r0, hr0, hnt0⟩ := reportsNonTerminal_ok _ (hpre 0 (Nat.succ_pos m))
      rw [Nat.add_zero] at hr0
      rw [waitLoop_cont_step client appId intervalMs n i r0 hr0 hnt0]
      have hpre' : ∀ j, j < m → reportsNonTerminal (client (i + 1 + j) [appId]) = true := by
        intro j hj
        have := hpre (j + 1) (by omega)
        rwa [show i + (j + 1) = i + 1 + j by omega] at this
      have hcl' : client (i + 1 + m) [appId] = Except.ok r := by
        rwa [show i + 1 + m = i + (m + 1) by omega]
      obtain ⟨h1, h2, h3⟩ := ih n (i + 1) r s (by omega) hpre' hcl' hs hterm
      exact ⟨h1, by simp [numQueries, h2], by simp [numSleeps, h3]⟩

/-- When the first `k` queried responses are non-terminal and the
`(k+1)`-st call raises a transport error, the loop stops right there
with that very error: `k + 1` queries, `k` suspensions, no outcome. -/
lemma waitLoop_error_at {ε : Type} (client : Nat → List String → Except ε GetDeployStatusResp)
    (appId : String) (intervalMs : Nat) :
    ∀ k fuel i e, k < fuel →
      (∀ j, j < k → reportsNonTerminal (client (i + j) [appId]) = true) →
      client (i + k) [appId] = Except.error e →
      (waitLoop client appId intervalMs fuel i).2 = Except.error e ∧
        numQueries (waitLoop client appId intervalMs fuel i).1 = k + 1 ∧
        numSleeps (waitLoop client appId intervalMs fuel i).1 = k := by
  intro k
  induction k with
  | zero =>
    intro fuel i e hk _ hcl
    cases fuel with
    | zero => omega
    | succ n =>
      rw [Nat.add_zero] at hcl
      rw [waitLoop_err_step client appId intervalMs n i e hcl]
      simp [numQueries, numSleeps]
  | succ m ih =>
    intro fuel i e hk hpre hcl
    cases fuel with
    | zero => omega
    | succ n =>
      obtain ⟨r0, hr0, hnt0⟩ := reportsNonTerminal_ok _ (hpre 0 (Nat.succ_pos m))
      rw [Nat.add_zero] at hr0
      rw [waitLoop_cont_step client appId intervalMs n i r0 hr0 hnt0]
      have hpre' : ∀ j, j < m → reportsNonTerminal (client (i + 1 + j) [appId]) = true := by
        intro j hj
        have := hpre (j + 1) (by omega)
        rwa [show i + (j + 1) = i + 1 + j by omega] at this
      have hcl' : client (i + 1 + m) [appId] = Except.error e := by
        rwa [show i + 1 + m = i + (m + 1) by omega]
      obtain ⟨h1, h2, h3⟩ := ih n (i + 1) e (by omega) hpre' hcl'
      exact ⟨h1, by simp [numQueries, h2], by simp [numSleeps, h3]⟩

lemma isNonTerminal_false_iff (r : GetDeployStatusResp) :
    isNonTerminal r = false ↔
      firstStatus r = some "SUCCESS" ∨ firstStatus r = some "FAIL" ∨
        firstStatus r = some "CANCEL" := by
  rw [← Bool.not_eq_true, isNonTerminal_iff]
  tauto

/-- Every returned outcome has its success flag set exactly when its
status is `"SUCCESS"`. -/
lemma waitLoop_success_iff {ε : Type} (client : Nat → List String → Except ε GetDeployStatusResp)
    (appId : String) (intervalMs : Nat) :
    ∀ fuel i o, (waitLoop client appId intervalMs fuel i).2 = Except.ok o →
      (o.success = true ↔ o.status = "SUCCESS") := by
  intro fuel
  induction fuel with
  | zero =>
    intro i o ho
    simp [waitLoop] at ho
    subst ho
    decide
  | succ n ih =>
    intro i o ho
    cases hcl : client i [appId] with
    | error e =>
      rw [waitLoop_err_step _ _ _ n i e hcl] at ho
      simp at ho
    | ok r =>
      cases hnt : isNonTerminal r with
      | true =>
        rw [waitLoop_cont_step _ _ _ n i r hcl hnt] at ho
        exact ih (i + 1) o ho
      | false =>
        rcases (isNonTerminal_false_iff r).mp hnt with hs | hs | hs <;>
          · rw [waitLoop_terminal_step _ _ _ n i r _ hcl hs (by simp)] at ho
            simp at ho
            subst ho
            decide

/-- Every returned outcome carries one of the three remote statuses or
the waiter's own `"TIMEOUT"`. -/
lemma waitLoop_status_range {ε : Type} (client : Nat → List String → Except ε GetDeployStatusResp)
    (appId : String) (intervalMs : Nat) :
    ∀ fuel i o, (waitLoop client appId intervalMs fuel i).2 = Except.ok o →
      o.status = "SUCCESS" ∨ o.status = "FAIL" ∨ o.status = "CANCEL" ∨
        o.status = "TIMEOUT" := by
  intro fuel
  induction fuel with
  | zero =>
    intro i o ho
    simp [waitLoop] at ho
    subst ho
    decide
  | succ n ih =>
    intro i o ho
    cases hcl : client i [appId] with
    | error e =>
      rw [waitLoop_err_step _ _ _ n i e hcl] at ho
      simp at ho
    | ok r =>
      cases hnt : isNonTerminal r with
      | true =>
        rw [waitLoop_cont_step _ _ _ n i r hcl hnt] at ho
        exact ih (i + 1) o ho
      | false =>
        rcases (isNonTerminal_false_iff r).mp hnt with hs | hs | hs <;>
          · rw [waitLoop_terminal_step _ _ _ n i r _ hcl hs (by simp)] at ho
            simp at ho
            subst ho
            decide

/-- Replacing every non-terminal response by the canonical `PROCESSING`
one changes nothing about a run: same trace, same result. -/
lemma waitLoop_canonize {ε : Type} (client : Nat → List String → Except ε GetDeployStatusResp)
    (appId : String) (intervalMs : Nat) :
    ∀ fuel i, waitLoop (canonize client) appId intervalMs fuel i =
      waitLoop client appId intervalMs fuel i := by
  intro fuel
  induction fuel with
  | zero => intro i; rfl
  | succ n ih =>
    intro i
    cases hcl : client i [appId] with
    | error e =>
      have hc : canonize client i [appId] = Except.error e := by simp [canonize, hcl]
      rw [waitLoop_err_step _ _ _ n i e hc, waitLoop_err_step _ _ _ n i e hcl]
    | ok r =>
      cases hnt : isNonTerminal r with
      | true =>
        have hc : canonize client i [appId] =
            Except.ok (⟨[⟨"", some "PROCESSING"⟩]⟩ : GetDeployStatusResp) := by
          simp [canonize, hcl, hnt]
        rw [waitLoop_cont_step _ _ _ n i _ hc (by decide),
            waitLoop_cont_step _ _ _ n i r hcl hnt, ih (i + 1)]
      | false =>
        have hc : canonize client i [appId] = Except.ok r := by
          simp [canonize, hcl, hnt]
        rcases (isNonTerminal_false_iff r).mp hnt with hs | hs | hs <;>
          rw [waitLoop_terminal_step _ _ _ n i r _ hc hs (by simp),
              waitLoop_terminal_step _ _ _ n i r _ hcl hs (by simp)]

/-- Every run's trace is well-formed: query indices are consecutive and
each non-final query is followed by exactly one suspension of the
configured duration. -/
lemma waitLoop_wellFormed {ε : Type} (client : Nat → List String → Except ε GetDeployStatusResp)
    (appId : String) (intervalMs : Nat) :
    ∀ fuel i, wellFormedTrace intervalMs i (waitLoop client appId intervalMs fuel i).1 = true := by
  intro fuel
  induction fuel with
  | zero => intro i; rfl
  | succ n ih =>
    intro i
    cases hcl : client i [appId] with
    | error e =>
      rw [waitLoop_err_step _ _ _ n i e hcl]
      simp [wellFormedTrace]
    | ok r =>
      cases hnt : isNonTerminal r with
      | true =>
        rw [waitLoop_cont_step _ _ _ n i r hcl hnt]
        simp [wellFormedTrace, ih (i + 1)]
      | false =>
        rcases (isNonTerminal_false_iff r).mp hnt with hs | hs | hs <;>
          · rw [waitLoop_terminal_step _ _ _ n i r _ hcl hs (by simp)]
            simp [wellFormedTrace]

/-- A run's trace is empty or starts with the query at the run's first
attempt index. -/
lemma waitLoop_head {ε : Type} (client : Nat → List String → Except ε GetDeployStatusResp)
    (appId : String) (intervalMs fuel i : Nat) :
    (waitLoop client appId intervalMs fuel i).1 = [] ∨
      ∃ tl, (waitLoop client appId intervalMs fuel i).1 =
        WaitEvent.query i [appId] :: tl := by
  cases fuel with
  | zero => left; rfl
  | succ n =>
    cases hcl : client i [appId] with
    | error e =>
      right
      rw [waitLoop_err_step _ _ _ n i e hcl]
      exact ⟨[], rfl⟩
    | ok r =>
      cases hnt : isNonTerminal r with
      | true =>
        right
        rw [waitLoop_cont_step _ _ _ n i r hcl hnt]
        exact ⟨_, rfl⟩
      | false =>
        rcases (isNonTerminal_false_iff r).mp hnt with hs | hs | hs <;>
          · right
            rw [waitLoop_terminal_step _ _ _ n i r _ hcl hs (by simp)]
            exact ⟨[], rfl⟩

/-- Under any assignment of query durations, consecutive query start
times in a run's trace are at least `intervalMs` apart. -/
lemma waitLoop_chain {ε : Type} (client : Nat → List String → Except ε GetDeployStatusResp)
    (appId : String) (intervalMs : Nat) :
    ∀ fuel i dur t, List.Chain' (fun a b => a + intervalMs ≤ b)
      (callStarts dur (waitLoop client appId intervalMs fuel i).1 t) := by
  intro fuel
  induction fuel with
  | zero => intro i dur t; simp [waitLoop, callStarts]
  | succ n ih =>
    intro i dur t
    cases hcl : client i [appId] with
    | error e =>
      rw [waitLoop_err_step _ _ _ n i e hcl]
      simp [callStarts]
    | ok r =>
      cases hnt : isNonTerminal r with
      | false =>
        rcases (isNonTerminal_false_iff r).mp hnt with hs | hs | hs <;>
          · rw [waitLoop_terminal_step _ _ _ n i r _ hcl hs (by simp)]
            simp [callStarts]
      | true =>
        rw [waitLoop_cont_step _ _ _ n i r hcl hnt]
        simp only [callStarts]
        rcases waitLoop_head client appId intervalMs n (i + 1) with hnil | ⟨tl, htl⟩
        · rw [hnil]
          simp [callStarts]
        · have hih := ih (i + 1) dur (t + dur i + intervalMs)
          rw [htl] at hih ⊢
          simp only [callStarts] at hih ⊢
          rw [List.chain'_cons]
          constructor
          · show t + intervalMs ≤ t + dur i + intervalMs
            omega
          · exact hih

/-- Every query of a run submits the singleton batch `[appId]`. -/
lemma waitLoop_query_batch {ε : Type} (client : Nat → List String → Except ε GetDeployStatusResp)
    (appId : String) (intervalMs : Nat) :
    ∀ fuel i j b, WaitEvent.query j b ∈ (waitLoop client appId intervalMs fuel i).1 →
      b = [appId] := by
  intro fuel
  induction fuel with
  | zero => intro i j b h; simp [waitLoop] at h
  | succ n ih =>
    intro i j b h
    cases hcl : client i [appId] with
    | error e =>
      rw [waitLoop_err_step _ _ _ n i e hcl] at h
      simp at h
      exact h.2
    | ok r =>
      cases hnt : isNonTerminal r with
      | true =>
        rw [waitLoop_cont_step _ _ _ n i r hcl hnt] at h
        simp [List.mem_cons] at h
        rcases h with ⟨_, hb⟩ | hmem
        · exact hb
        · exact ih (i + 1) j b hmem
      | false =>
        rcases (isNonTerminal_false_iff r).mp hnt with hs | hs | hs <;>
          · rw [waitLoop_terminal_step _ _ _ n i r _ hcl hs (by simp)] at h
            simp at h
            exact h.2

/-- Two clients whose responses agree on the first entry of every
response (and on errors) drive the waiter identically. -/
lemma waitLoop_first_entry {ε : Type}
    (client1 client2 : Nat → List String → Except ε GetDeployStatusResp)
    (appId : String) (intervalMs : Nat)
    (h : ∀ i b, (client1 i b).map (fun r => r.apps.head?) =
      (client2 i b).map (fun r => r.apps.head?)) :
    ∀ fuel i, waitLoop client1 appId intervalMs fuel i =
      waitLoop client2 appId intervalMs fuel i := by
  intro fuel
  induction fuel with
  | zero => intro i; rfl
  | succ n ih =>
    intro i
    have hi := h i [appId]
    cases hcl1 : client1 i [appId] with
    | error e =>
      cases hcl2 : client2 i [appId] with
      | error e2 =>
        rw [hcl1, hcl2] at hi
        simp [Except.map] at hi
        subst hi
        rw [waitLoop_err_step _ _ _ n i e hcl1, waitLoop_err_step _ _ _ n i e hcl2]
      | ok r2 =>
        rw [hcl1, hcl2] at hi
        simp [Except.map] at hi
    | ok r1 =>
      cases hcl2 : client2 i [appId] with
      | error e2 =>
        rw [hcl1, hcl2] at hi
        simp [Except.map] at hi
      | ok r2 =>
        rw [hcl1, hcl2] at hi
        simp [Except.map] at hi
        have hfs : firstStatus r1 = firstStatus r2 := by simp [firstStatus, hi]
        cases hnt : isNonTerminal r1 with
        | true =>
          have hnt2 : isNonTerminal r2 = true := by
            rw [isNonTerminal_iff] at hnt ⊢
            rwa [hfs] at hnt
          rw [waitLoop_cont_step _ _ _ n i r1 hcl1 hnt,
              waitLoop_cont_step _ _ _ n i r2 hcl2 hnt2, ih (i + 1)]
        | false =>
          rcases (isNonTerminal_false_iff r1).mp hnt with hs | hs | hs <;>
            rw [waitLoop_terminal_step _ _ _ n i r1 _ hcl1 hs (by simp),
                waitLoop_terminal_step _ _ _ n i r2 _ hcl2 (hfs ▸ hs) (by simp)]

/- ### Helper lemmas about the dotenv parser -/

lemma splitOnChar_ne_nil (sep : Char) : ∀ s, splitOnChar sep s ≠ [] := by
  intro s
  cases s with
  | nil => simp [splitOnChar]
  | cons c rest =>
    rw [splitOnChar]
    by_cases h : c = sep
    · simp [h]
    · simp only [if_neg h]
      cases hs : splitOnChar sep rest <;> simp

/-- Splitting at a separator occurrence whose left part is free of the
separator peels off exactly that left part. -/
lemma splitOnChar_append (sep : Char) :
    ∀ (k v : List Char), ¬ sep ∈ k →
      splitOnChar sep (k ++ sep :: v) = k :: splitOnChar sep v := by
  intro k
  induction k with
  | nil => intro v _; simp [splitOnChar]
  | cons c k' ih =>
    intro v hmem
    have hc : ¬ c = sep := by
      rintro rfl
      exact hmem (List.mem_cons_self c k')
    have hrec := ih v (fun hm => hmem (List.mem_cons_of_mem c hm))
    simp only [List.cons_append, splitOnChar, if_neg hc, List.append_eq, hrec]

lemma joinSep_cons (sep : Char) (p : List Char) (ps : List (List Char)) (hps : ps ≠ []) :
    joinSep sep (p :: ps) = p ++ sep :: joinSep sep ps := by
  cases ps with
  | nil => exact absurd rfl hps
  | cons q qs => rfl

/-- Rejoining the parts of a split restores the original string, with
every separator occurrence back in place. -/
lemma joinSep_splitOnChar (sep : Char) : ∀ s, joinSep sep (splitOnChar sep s) = s := by
  intro s
  induction s with
  | nil => rfl
  | cons c rest ih =>
    rw [splitOnChar]
    by_cases h : c = sep
    · rw [if_pos h]
      rw [joinSep_cons sep [] _ (splitOnChar_ne_nil sep rest), ih]
      simp [h]
    · rw [if_neg h]
      rcases hs : splitOnChar sep rest with _ | ⟨p, ps⟩
      · exact absurd hs (splitOnChar_ne_nil sep rest)
      · rw [hs] at ih
        cases ps with
        | nil =>
          show c :: p = c :: rest
          have hp : p = rest := ih
          rw [hp]
        | cons q qs =>
          rw [joinSep_cons sep (c :: p) (q :: qs) (by simp)]
          rw [joinSep_cons sep p (q :: qs) (by simp)] at ih
          rw [← ih]
          simp

lemma splitOnChar_not_mem (sep : Char) : ∀ s, ¬ sep ∈ s → splitOnChar sep s = [s] := by
  intro s
  induction s with
  | nil => intro _; rfl
  | cons c rest ih =>
    intro h
    have hc : ¬ c = sep := by
      rintro rfl
      exact h (List.mem_cons_self c rest)
    simp only [splitOnChar, if_neg hc, ih (fun hm => h (List.mem_cons_of_mem c hm))]

/-- A line whose trimmed form decomposes as `KEY=REST`, with a
non-empty, `=`-free key not starting the line with `#`, produces the
entry of the trimmed key and the trimmed rest (the rest keeping any
further `=` occurrences intact). -/
lemma parseEnvLine_entry (line k v : List Char)
    (ht : jsTrim line = k ++ '=' :: v) (hk : ¬ '=' ∈ k) (hk0 : k ≠ [])
    (hh : k.head? ≠ some '#') :
    parseEnvLine line = some (jsTrim k, jsTrim v) := by
  have hne : k ++ '=' :: v ≠ [] := by simp
  have hhead : (k ++ '=' :: v).head? = k.head? := by
    cases k with
    | nil => exact absurd rfl hk0
    | cons a k' => rfl
  simp only [parseEnvLine, ht, if_neg hne, hhead, if_neg hh,
    splitOnChar_append '=' k v hk]
  rw [if_pos ⟨hk0, List.length_pos.mpr (splitOnChar_ne_nil '=' v)⟩,
    joinSep_splitOnChar]

/-- A line that trims to nothing produces no entry. -/
lemma parseEnvLine_blank (line : List Char) (h : jsTrim line = []) :
    parseEnvLine line = none := by
  simp [parseEnvLine, h]

/-- A line whose trimmed form starts with `#` produces no entry. -/
lemma parseEnvLine_comment (line : List Char) (h : (jsTrim line).head? = some '#') :
    parseEnvLine line = none := by
  have hne : jsTrim line ≠ [] := by
    intro h0
    rw [h0] at h
    simp at h
  simp [parseEnvLine, hne, h]

/-- A line with no `=` in its trimmed form produces no entry. -/
lemma parseEnvLine_noEq (line : List Char) (h : ¬ '=' ∈ jsTrim line) :
    parseEnvLine line = none := by
  by_cases hb : jsTrim line = []
  · exact parseEnvLine_blank line hb
  by_cases hc : (jsTrim line).head? = some '#'
  · exact parseEnvLine_comment line hc
  simp only [parseEnvLine, if_neg hb, if_neg hc, splitOnChar_not_mem '=' _ h]
  simp

/-- `loadEnv` on a newline-free content processes it as the single line
it is. -/
lemma loadEnv_single (line : List Char) (hnl : ¬ '\n' ∈ line) :
    loadEnv line =
      match parseEnvLine line with
      | some (k, v) => [(k, v)]
      | none => [] := by
  unfold loadEnv
  rw [splitOnChar_not_mem '\n' line hnl]
  cases hp : parseEnvLine line with
  | none => simp [hp]
  | some kv =>
    cases kv with
    | mk k v => simp [hp, setKey]

/- ### Claim theorems -/

/-- Claim C1: for every `maxAttempts > 0`, when every queried response
is non-terminal (`PROCESSING` or unrecognized) the waiter returns
`{success: false, status: "TIMEOUT"}` after exactly `maxAttempts`
queries; conversely an outcome whose status is `"TIMEOUT"` arises only
from budget exhaustion — its success flag is false, the whole budget
was queried and every queried response was non-terminal, so the value
is never echoed from a remote response. -/
theorem waitForDeploy_timeout_budget :
    (∀ {ε : Type} (client : Nat → List String → Except ε GetDeployStatusResp)
        (appId : String) (maxAttempts : Int) (intervalMs : Nat),
      0 < maxAttempts →
      (∀ i, i < maxAttempts.toNat → reportsNonTerminal (client i [appId]) = true) →
      (waitForDeploy client appId maxAttempts intervalMs).2 =
          Except.ok ⟨false, "TIMEOUT"⟩ ∧
        (numQueries (waitForDeploy client appId maxAttempts intervalMs).1 : Int) =
          maxAttempts) ∧
    (∀ {ε : Type} (client : Nat → List String → Except ε GetDeployStatusResp)
        (appId : String) (maxAttempts : Int) (intervalMs : Nat) (o : WaitOutcome),
      (waitForDeploy client appId maxAttempts intervalMs).2 = Except.ok o →
      o.status = "TIMEOUT" →
      o.success = false ∧
        numQueries (waitForDeploy client appId maxAttempts intervalMs).1 =
          maxAttempts.toNat ∧
        ∀ i, i < maxAttempts.toNat → reportsNonTerminal (client i [appId]) = true) := by
  constructor
  · intro ε client appId maxAttempts intervalMs hpos hnt
    unfold waitForDeploy
    have h := waitLoop_timeout client appId intervalMs maxAttempts.toNat 0
      (fun j hj => by simpa using hnt j hj)
    refine ⟨h.1, ?_⟩
    rw [h.2.1]
    omega
  · intro ε client appId maxAttempts intervalMs o ho hto
    have h := waitLoop_timeout_only client appId intervalMs maxAttempts.toNat 0 o ho hto
    exact ⟨h.1, h.2.1, fun i hi => by simpa using h.2.2.2 i hi⟩

/-- Witness for C1 at `procClient`, three attempts. -/
theorem waitForDeploy_timeout_budget_witness :
    (0 : Int) < 3 ∧
    (∀ i, i < (3 : Int).toNat → reportsNonTerminal (procClient i ["1"]) = true) ∧
    (waitForDeploy procClient "1" 3 10).2 = Except.ok ⟨false, "TIMEOUT"⟩ :=
  ⟨by decide, by decide,
    (waitForDeploy_timeout_budget.1 procClient "1" 3 10 (by decide) (by decide)).1⟩

/-- Claim C2: when the first `k` queried responses are non-terminal and
call `k + 1` reports `SUCCESS`, with `k < maxAttempts`, the waiter
returns `{success: true, status: "SUCCESS"}` after exactly `k + 1`
queries and exactly `k` suspensions. -/
theorem waitForDeploy_eventual_success {ε : Type}
    (client : Nat → List String → Except ε GetDeployStatusResp)
    (appId : String) (maxAttempts : Int) (intervalMs : Nat) (k : Nat)
    (r : GetDeployStatusResp)
    (hk : (k : Int) < maxAttempts)
    (hpre : ∀ j, j < k → reportsNonTerminal (client j [appId]) = true)
    (hcl : client k [appId] = Except.ok r)
    (hs : firstStatus r = some "SUCCESS") :
    (waitForDeploy client appId maxAttempts intervalMs).2 =
        Except.ok ⟨true, "SUCCESS"⟩ ∧
      numQueries (waitForDeploy client appId maxAttempts intervalMs).1 = k + 1 ∧
      numSleeps (waitForDeploy client appId maxAttempts intervalMs).1 = k := by
  unfold waitForDeploy
  have h := waitLoop_terminal_at client appId intervalMs k maxAttempts.toNat 0 r "SUCCESS"
    (by omega) (fun j hj => by simpa using hpre j hj) (by simpa using hcl) hs (by simp)
  simpa using h

/-- Witness for C2 at `sClient` (`PROCESSING`, `PROCESSING`, `SUCCESS`). -/
theorem waitForDeploy_eventual_success_witness :
    ((2 : Nat) : Int) < 30 ∧
    (waitForDeploy sClient "1" 30 10).2 = Except.ok ⟨true, "SUCCESS"⟩ ∧
      numQueries (waitForDeploy sClient "1" 30 10).1 = 2 + 1 ∧
      numSleeps (waitForDeploy sClient "1" 30 10).1 = 2 :=
  ⟨by decide,
    waitForDeploy_eventual_success sClient "1" 30 10 2 (mkResp "SUCCESS")
      (by decide) (by decide) rfl rfl⟩

/-- Claim C3: every outcome returned by the waiter has its success flag
set exactly when its status field is `"SUCCESS"`. -/
theorem waitForDeploy_success_iff_SUCCESS {ε : Type}
    (client : Nat → List String → Except ε GetDeployStatusResp)
    (appId : String) (maxAttempts : Int) (intervalMs : Nat) (o : WaitOutcome)
    (ho : (waitForDeploy client appId maxAttempts intervalMs).2 = Except.ok o) :
    o.success = true ↔ o.status = "SUCCESS" :=
  waitLoop_success_iff client appId intervalMs maxAttempts.toNat 0 o ho

/-- Witness for C3 at `sClient`. -/
theorem waitForDeploy_success_iff_SUCCESS_witness :
    (waitForDeploy sClient "1" 30 10).2 = Except.ok ⟨true, "SUCCESS"⟩ ∧
      ((⟨true, "SUCCESS"⟩ : WaitOutcome).success = true ↔
        (⟨true, "SUCCESS"⟩ : WaitOutcome).status = "SUCCESS") :=
  ⟨rfl,
    waitForDeploy_success_iff_SUCCESS sClient "1" 30 10 ⟨true, "SUCCESS"⟩ rfl⟩

/-- Claim C4: when the first terminal report, at call `k + 1`, is
`FAIL` or `CANCEL` (all earlier reports non-terminal), the waiter
returns `{success: false, status: <that value>}` immediately: exactly
`k + 1` queries and `k` suspensions, so no further query, no suspension
after the observation, and no retry. -/
theorem waitForDeploy_terminal_failure {ε : Type}
    (client : Nat → List String → Except ε GetDeployStatusResp)
    (appId : String) (maxAttempts : Int) (intervalMs : Nat) (k : Nat)
    (r : GetDeployStatusResp) (s : String)
    (hk : (k : Int) < maxAttempts)
    (hpre : ∀ j, j < k → reportsNonTerminal (client j [appId]) = true)
    (hcl : client k [appId] = Except.ok r)
    (hs : firstStatus r = some s)
    (hfc : s = "FAIL" ∨ s = "CANCEL") :
    (waitForDeploy client appId maxAttempts intervalMs).2 = Except.ok ⟨false, s⟩ ∧
      numQueries (waitForDeploy client appId maxAttempts intervalMs).1 = k + 1 ∧
      numSleeps (waitForDeploy client appId maxAttempts intervalMs).1 = k := by
  unfold waitForDeploy
  have h := waitLoop_terminal_at client appId intervalMs k maxAttempts.toNat 0 r s
    (by omega) (fun j hj => by simpa using hpre j hj) (by simpa using hcl) hs
    (Or.inr hfc)
  rcases hfc with h1 | h1 <;> subst h1 <;> simpa using h

/-- Witness for C4 at `fClient` (`FAIL` on the first call). -/
theorem waitForDeploy_terminal_failure_witness :
    ((0 : Nat) : Int) < 30 ∧
    (waitForDeploy fClient "1" 30 10).2 = Except.ok ⟨false, "FAIL"⟩ ∧
      numQueries (waitForDeploy fClient "1" 30 10).1 = 0 + 1 ∧
      numSleeps (waitForDeploy fClient "1" 30 10).1 = 0 :=
  ⟨by decide,
    waitForDeploy_terminal_failure fClient "1" 30 10 0 (mkResp "FAIL") "FAIL"
      (by decide) (by omega) rfl rfl (Or.inl rfl)⟩

/-- Claim C5: a poll whose response carries no terminal status — any
unrecognized value, a missing status field, or an empty entry list —
raises no error and is treated exactly like a `PROCESSING` report: the
waiter suspends and proceeds to the next attempt (first conjunct), a
run is unchanged when all such responses are replaced by the canonical
`PROCESSING` one (second conjunct), and every returned outcome carries
a terminal status or `"TIMEOUT"` (third conjunct). -/
theorem waitForDeploy_unrecognized_keeps_polling :
    (∀ {ε : Type} (client : Nat → List String → Except ε GetDeployStatusResp)
        (appId : String) (intervalMs fuel i : Nat) (r : GetDeployStatusResp),
      client i [appId] = Except.ok r → isNonTerminal r = true →
      waitLoop client appId intervalMs (fuel + 1) i =
        (WaitEvent.query i [appId] :: WaitEvent.sleep intervalMs ::
           (waitLoop client appId intervalMs fuel (i + 1)).1,
         (waitLoop client appId intervalMs fuel (i + 1)).2)) ∧
    (∀ {ε : Type} (client : Nat → List String → Except ε GetDeployStatusResp)
        (appId : String) (maxAttempts : Int) (intervalMs : Nat),
      waitForDeploy (canonize client) appId maxAttempts intervalMs =
        waitForDeploy client appId maxAttempts intervalMs) ∧
    (∀ {ε : Type} (client : Nat → List String → Except ε GetDeployStatusResp)
        (appId : String) (maxAttempts : Int) (intervalMs : Nat) (o : WaitOutcome),
      (waitForDeploy client appId maxAttempts intervalMs).2 = Except.ok o →
      o.status = "SUCCESS" ∨ o.status = "FAIL" ∨ o.status = "CANCEL" ∨
        o.status = "TIMEOUT") := by
  refine ⟨?_, ?_, ?_⟩
  · intro ε client appId intervalMs fuel i r hcl hnt
    exact waitLoop_cont_step client appId intervalMs fuel i r hcl hnt
  · intro ε client appId maxAttempts intervalMs
    unfold waitForDeploy
    exact waitLoop_canonize client appId intervalMs maxAttempts.toNat 0
  · intro ε client appId maxAttempts intervalMs o ho
    exact waitLoop_status_range client appId intervalMs maxAttempts.toNat 0 o ho

/-- Witness for C5 at `emptyEntriesClient` (responses with an empty
entry list). -/
theorem waitForDeploy_unrecognized_keeps_polling_witness :
    emptyEntriesClient 0 ["9"] = Except.ok ⟨[]⟩ ∧
    isNonTerminal ⟨[]⟩ = true ∧
    waitLoop emptyEntriesClient "9" 7 1 0 =
      (WaitEvent.query 0 ["9"] :: WaitEvent.sleep 7 ::
         (waitLoop emptyEntriesClient "9" 7 0 1).1,
       (waitLoop emptyEntriesClient "9" 7 0 1).2) :=
  ⟨rfl, by decide,
    waitForDeploy_unrecognized_keeps_polling.1 emptyEntriesClient "9" 7 0 0 ⟨[]⟩
      rfl (by decide)⟩

/-- Claim C6: a zero or negative `maxAttempts` yields an immediate
`{success: false, status: "TIMEOUT"}` with no query and no suspension. -/
theorem waitForDeploy_nonpositive_budget {ε : Type}
    (client : Nat → List String → Except ε GetDeployStatusResp)
    (appId : String) (maxAttempts : Int) (intervalMs : Nat)
    (h : maxAttempts ≤ 0) :
    waitForDeploy client appId maxAttempts intervalMs =
        ([], Except.ok ⟨false, "TIMEOUT"⟩) ∧
      numQueries (waitForDeploy client appId maxAttempts intervalMs).1 = 0 ∧
      numSleeps (waitForDeploy client appId maxAttempts intervalMs).1 = 0 := by
  unfold waitForDeploy
  have h0 : maxAttempts.toNat = 0 := by omega
  rw [h0]
  exact ⟨rfl, rfl, rfl⟩

/-- Witness for C6 at `maxAttempts = -2`. -/
theorem waitForDeploy_nonpositive_budget_witness :
    (-2 : Int) ≤ 0 ∧
    waitForDeploy procClient "1" (-2) 10 = ([], Except.ok ⟨false, "TIMEOUT"⟩) :=
  ⟨by decide, (waitForDeploy_nonpositive_budget procClient "1" (-2) 10 (by decide)).1⟩

/-- Claim C7: when the first `k` queried responses are non-terminal and
call `k + 1` raises a transport error, the waiter propagates that very
error: the run's result is `Except.error e` (no `WaitOutcome`), with
exactly `k + 1` queries and `k` suspensions — no catch, no retry. -/
theorem waitForDeploy_error_propagates {ε : Type}
    (client : Nat → List String → Except ε GetDeployStatusResp)
    (appId : String) (maxAttempts : Int) (intervalMs : Nat) (k : Nat) (e : ε)
    (hk : (k : Int) < maxAttempts)
    (hpre : ∀ j, j < k → reportsNonTerminal (client j [appId]) = true)
    (hcl : client k [appId] = Except.error e) :
    (waitForDeploy client appId maxAttempts intervalMs).2 = Except.error e ∧
      numQueries (waitForDeploy client appId maxAttempts intervalMs).1 = k + 1 ∧
      numSleeps (waitForDeploy client appId maxAttempts intervalMs).1 = k := by
  unfold waitForDeploy
  exact waitLoop_error_at client appId intervalMs k maxAttempts.toNat 0 e (by omega)
    (fun j hj => by simpa using hpre j hj) (by simpa using hcl)

/-- Witness for C7 at `errClient` (error on the first call). -/
theorem waitForDeploy_error_propagates_witness :
    ((0 : Nat) : Int) < 5 ∧
    (waitForDeploy errClient "1" 5 10).2 = Except.error () ∧
      numQueries (waitForDeploy errClient "1" 5 10).1 = 0 + 1 ∧
      numSleeps (waitForDeploy errClient "1" 5 10).1 = 0 :=
  ⟨by decide,
    waitForDeploy_error_propagates errClient "1" 5 10 0 () (by decide) (by omega) rfl⟩

/-- Claim C8: every run's trace is well-formed — exactly one suspension
of duration `intervalMs` per loop iteration, right after each
non-terminal observation and before the next query (first conjunct); so
under any query durations, consecutive query start times are at least
`intervalMs` apart (second conjunct); and a `TIMEOUT` run suspends once
per query, including after the final, `maxAttempts`-th, observation
(third conjunct). -/
theorem waitForDeploy_suspension_discipline :
    (∀ {ε : Type} (client : Nat → List String → Except ε GetDeployStatusResp)
        (appId : String) (maxAttempts : Int) (intervalMs : Nat),
      wellFormedTrace intervalMs 0
        (waitForDeploy client appId maxAttempts intervalMs).1 = true) ∧
    (∀ {ε : Type} (client : Nat → List String → Except ε GetDeployStatusResp)
        (appId : String) (maxAttempts : Int) (intervalMs : Nat)
        (dur : Nat → Nat) (t : Nat),
      List.Chain' (fun a b => a + intervalMs ≤ b)
        (callStarts dur (waitForDeploy client appId maxAttempts intervalMs).1 t)) ∧
    (∀ {ε : Type} (client : Nat → List String → Except ε GetDeployStatusResp)
        (appId : String) (maxAttempts : Int) (intervalMs : Nat) (o : WaitOutcome),
      (waitForDeploy client appId maxAttempts intervalMs).2 = Except.ok o →
      o.status = "TIMEOUT" →
      numSleeps (waitForDeploy client appId maxAttempts intervalMs).1 =
          numQueries (waitForDeploy client appId maxAttempts intervalMs).1 ∧
        numQueries (waitForDeploy client appId maxAttempts intervalMs).1 =
          maxAttempts.toNat) := by
  refine ⟨?_, ?_, ?_⟩
  · intro ε client appId maxAttempts intervalMs
    exact waitLoop_wellFormed client appId intervalMs maxAttempts.toNat 0
  · intro ε client appId maxAttempts intervalMs dur t
    exact waitLoop_chain client appId intervalMs maxAttempts.toNat 0 dur t
  · intro ε client appId maxAttempts intervalMs o ho hto
    have h := waitLoop_timeout_only client appId intervalMs maxAttempts.toNat 0 o ho hto
    exact ⟨h.2.2.1.trans h.2.1.symm, h.2.1⟩

/-- Witness for C8 at `procClient`, two attempts. -/
theorem waitForDeploy_suspension_discipline_witness :
    (waitForDeploy procClient "1" 2 10).2 = Except.ok ⟨false, "TIMEOUT"⟩ ∧
    numSleeps (waitForDeploy procClient "1" 2 10).1 =
        numQueries (waitForDeploy procClient "1" 2 10).1 ∧
      numQueries (waitForDeploy procClient "1" 2 10).1 = (2 : Int).toNat :=
  ⟨rfl,
    waitForDeploy_suspension_discipline.2.2 procClient "1" 2 10 ⟨false, "TIMEOUT"⟩
      rfl rfl⟩

/-- Claim C9: every query of a run submits the singleton batch
`[appId]` (first conjunct), and the run is a function of the first
entry of each response only: two clients whose responses agree on first
entries (and on errors) produce the same trace — hence the same number
of calls — and the same result (second conjunct). -/
theorem waitForDeploy_singleton_batch :
    (∀ {ε : Type} (client : Nat → List String → Except ε GetDeployStatusResp)
        (appId : String) (maxAttempts : Int) (intervalMs : Nat) (i : Nat)
        (b : List String),
      WaitEvent.query i b ∈ (waitForDeploy client appId maxAttempts intervalMs).1 →
      b = [appId]) ∧
    (∀ {ε : Type} (client1 client2 : Nat → List String → Except ε GetDeployStatusResp)
        (appId : String) (maxAttempts : Int) (intervalMs : Nat),
      (∀ i b, (client1 i b).map (fun r => r.apps.head?) =
        (client2 i b).map (fun r => r.apps.head?)) →
      waitForDeploy client1 appId maxAttempts intervalMs =
        waitForDeploy client2 appId maxAttempts intervalMs) := by
  constructor
  · intro ε client appId maxAttempts intervalMs i b h
    exact waitLoop_query_batch client appId intervalMs maxAttempts.toNat 0 i b h
  · intro ε client1 client2 appId maxAttempts intervalMs h
    unfold waitForDeploy
    exact waitLoop_first_entry client1 client2 appId intervalMs h maxAttempts.toNat 0

/-- Witness for C9: two clients differing only in entries beyond the
first produce identical runs, and a concrete query's batch is the
singleton of the app id. -/
theorem waitForDeploy_singleton_batch_witness :
    waitForDeploy oneEntryClient "1" 30 10 = waitForDeploy twoEntryClient "1" 30 10 ∧
    WaitEvent.query 0 ["1"] ∈ (waitForDeploy oneEntryClient "1" 30 10).1 ∧
    (["1"] : List String) = ["1"] :=
  ⟨waitForDeploy_singleton_batch.2 oneEntryClient twoEntryClient "1" 30 10
      (fun i b => rfl),
    by simp [waitForDeploy, waitLoop, oneEntryClient, firstStatus, mkResp],
    waitForDeploy_singleton_batch.1 oneEntryClient "1" 30 10 0 ["1"]
      (by simp [waitForDeploy, waitLoop, oneEntryClient, firstStatus, mkResp])⟩

/-- Claim C10 counterexample: the line `KEY=` — an `=` with nothing
after it — is not ignored as the claim states: `loadEnv` produces the
entry mapping `KEY` to the empty string. -/
theorem loadEnv_empty_value_entry :
    loadEnv ("KEY=".toList) = [("KEY".toList, ([] : List Char))] ∧
      loadEnv ("KEY=".toList) ≠ [] := by
  decide

/-- Claim C10 (amended): for a line whose trimmed form is
`KEY=REST` with a non-empty, `=`-free, non-`#`-leading key — in
particular `KEY=V1=V2=...` with several `=` — `loadEnv` maps the
trimmed key to the trimmed rest, the value split off at the first `=`
only and rejoined with its `=` separators preserved; blank lines, lines
starting with `#`, and lines with no `=` are ignored and produce no
entry.  A line with an `=` but nothing after it is not ignored: it maps
the trimmed key to the empty string, which is the first conjunct with
an empty rest, as the counterexample shows concretely. -/
theorem loadEnv_line_behavior (line k v : List Char) (hnl : ¬ '\n' ∈ line) :
    (jsTrim line = k ++ '=' :: v → ¬ '=' ∈ k → k ≠ [] → k.head? ≠ some '#' →
      loadEnv line = [(jsTrim k, jsTrim v)]) ∧
    (jsTrim line = [] → loadEnv line = []) ∧
    ((jsTrim line).head? = some '#' → loadEnv line = []) ∧
    (¬ '=' ∈ jsTrim line → loadEnv line = []) := by
  refine ⟨?_, ?_, ?_, ?_⟩
  · intro ht hk hk0 hh
    rw [loadEnv_single line hnl, parseEnvLine_entry line k v ht hk hk0 hh]
  · intro h
    rw [loadEnv_single line hnl, parseEnvLine_blank line h]
  · intro h
    rw [loadEnv_single line hnl, parseEnvLine_comment line h]
  · intro h
    rw [loadEnv_single line hnl, parseEnvLine_noEq line h]

/-- Witness for the amended C10 at the line `KEY=V1=V2`. -/
theorem loadEnv_line_behavior_witness :
    loadEnv ("KEY=V1=V2".toList) = [("KEY".toList, "V1=V2".toList)] := by
  have h := (loadEnv_line_behavior ("KEY=V1=V2".toList) ("KEY".toList)
      ("V1=V2".toList) (by decide)).1 (by decide) (by decide) (by decide) (by decide)
  rw [h]
  decide
